import Mathlib

/-!
Shallow embedding of the Market Price Simulation & Sell-Timing Advisory
Engine of `backend/farmer/routes.py`.

Prices and random draws are modelled over `ℚ` (the float arithmetic of the
source, idealised); geographic distances use `ℝ` because the haversine
formula is transcendental.  Randomness is modelled by passing the stream of
unit draws explicitly: a call `random.uniform(a, b)` that consumes the n-th
draw `u n ∈ [0,1]` is embedded as `a + (b - a) * u n`.  A seeded generator
`random.Random(seed)` is modelled as a function `gen : ℤ → ℕ → ℚ` from the
seed to the stream of unit draws, and Python's per-process string hash as an
arbitrary function `hashS : String → ℤ`.
-/

/-- Python's `round` to an integer (banker's rounding: ties go to the even
integer), over any linear ordered field with a floor. -/
def pyRoundInt {α : Type} [LinearOrderedField α] [FloorRing α] (x : α) : ℤ :=
  if x - (⌊x⌋ : α) < 1/2 then ⌊x⌋
  else if x - (⌊x⌋ : α) > 1/2 then ⌊x⌋ + 1
  else if ⌊x⌋ % 2 = 0 then ⌊x⌋ else ⌊x⌋ + 1

/-- Python's `round(x, n)` (`n` decimal digits). -/
def pyRound {α : Type} [LinearOrderedField α] [FloorRing α] (n : ℕ) (x : α) : α :=
  (pyRoundInt (x * 10 ^ n) : α) / 10 ^ n

/-- `random.uniform(a, b)` evaluated at the unit draw `u ∈ [0,1]`. -/
def uniform {α : Type} [LinearOrderedField α] (a b u : α) : α :=
  a + (b - a) * u

/-- `CROP_PRICE_RANGES` of `routes.py`: crop name to (low, high) ₹/kg. -/
def CROP_PRICE_RANGES : List (String × ℚ × ℚ) :=
  [("tomato", 15, 55), ("onion", 20, 60), ("potato", 18, 40),
   ("wheat", 22, 35), ("rice", 30, 50), ("chilli", 80, 200),
   ("carrot", 25, 50), ("brinjal", 20, 45), ("cabbage", 12, 30),
   ("cauliflower", 25, 60), ("banana", 20, 45), ("mango", 40, 120),
   ("grape", 50, 150), ("apple", 80, 200), ("sugarcane", 3, 5)]

/-- Python's `str.lower()` (character-wise lowercasing; the crop names in
the table are ASCII). -/
def lower (s : String) : String := ⟨s.data.map Char.toLower⟩

/-- `CROP_PRICE_RANGES.get(crop.lower(), (20, 50))`. -/
def cropPriceRange (crop : String) : ℚ × ℚ :=
  (CROP_PRICE_RANGES.lookup (lower crop)).getD (20, 50)

/-- One step of the simulated random walk used by both the 30-day price
history and the pre-forecast window of the voice flow:
`price += rng.uniform(-2, 2.3); price = max(lo*0.7, min(hi*1.3, price))`. -/
def walkStep (lo hi p inc : ℚ) : ℚ :=
  max (lo * (7/10)) (min (hi * (13/10)) (p + inc))

/-- The walk loop: from unrounded current price `p`, consuming unit draws
`u k, u (k+1), …`, emit `days` prices, each appended rounded to 2 decimals
while the unrounded value is carried to the next step. -/
def walkFrom (lo hi : ℚ) (u : ℕ → ℚ) : ℕ → ℚ → ℕ → List ℚ
  | _, _, 0 => []
  | k, p, days + 1 =>
    let p' := walkStep lo hi p (uniform (-2) (23/10) (u k))
    pyRound 2 p' :: walkFrom lo hi u (k + 1) p' days

/-- Start price of each per-mandi series in `get_price_history`:
`price = base_price + rng.uniform(-5, 5)`. -/
def history_start_price (lo hi u0 : ℚ) : ℚ :=
  (lo + hi) / 2 + uniform (-5) 5 u0

/-- Start price of the pre-forecast window in `process_voice`:
`p = base + rng.uniform(-3, 3)`. -/
def voice_start_price (lo hi u0 : ℚ) : ℚ :=
  (lo + hi) / 2 + uniform (-3) 3 u0

/-- One simulated history row: date (as an ordinal day number), mandi name,
rounded price. -/
structure PricePoint where
  date : ℤ
  mandi_name : String
  price_per_kg : ℚ
  deriving DecidableEq, Repr

/-- Body of `get_price_history` once the price range `(lo, hi)` has been
looked up: for each of the mandi names in order, start at
`history_start_price` and walk `days` steps, all mandis drawing from the
single seeded stream `u` in sequence. -/
def getPriceHistoryR (u : ℕ → ℚ) (lo hi : ℚ) (ordinal : ℤ) (days : ℕ)
    (names : List String) : List PricePoint :=
  (names.enum.map fun jn =>
    let start := jn.1 * (1 + days)
    let p0 := history_start_price lo hi (u start)
    ((walkFrom lo hi u (start + 1) p0 days).enum.map fun dp =>
      { date := ordinal - ((days : ℤ) - 1 - dp.1)
        mandi_name := jn.2
        price_per_kg := dp.2 })).flatten

/-- The first five mock mandi names (`mandi_names` in `get_price_history`). -/
def mandi_names : List String :=
  ["APMC Yeshwanthpur", "KR Market", "Bangalore APMC Binny Mill",
   "Chikkaballapur Mandi", "Kolar Mandi"]

/-- `get_price_history(crop, days)` with `today.toordinal() = ordinal`,
the per-process string hash `hashS` and the seeded-generator model `gen`.
The seed is `hash(crop) + today.toordinal()`. -/
def get_price_history (gen : ℤ → ℕ → ℚ) (hashS : String → ℤ)
    (crop : String) (ordinal : ℤ) (days : ℕ) : List PricePoint :=
  let pr := cropPriceRange crop
  getPriceHistoryR (gen (hashS crop + ordinal)) pr.1 pr.2 ordinal days mandi_names

/-- The 30-day seeded walk of the voice flow (`for _ in range(30)`), started
from `voice_start_price`. -/
def voice_prices30 (lo hi : ℚ) (u : ℕ → ℚ) : List ℚ :=
  walkFrom lo hi u 1 (voice_start_price lo hi (u 0)) 30

/-- `prices_last5 = prices_last5[-5:]` — the last 5 of the 30 walk values. -/
def prices_last5 (lo hi : ℚ) (u : ℕ → ℚ) : List ℚ :=
  (voice_prices30 lo hi u).drop (30 - 5)

/-- `avg_change = (xs[-1] - xs[0]) / len(xs) if len(xs) > 1 else 0`. -/
def avg_change (xs : List ℚ) : ℚ :=
  if xs.length > 1 then (xs.getLastD 0 - xs.headD 0) / xs.length else 0

/-- The 7-day forecast prices of the voice flow:
`round(max(lo*0.7, last_price + avg_change*(i+1) + random.uniform(-0.5, 0.5)), 2)`
for `i in range(7)`, with `w` the stream of unit draws of the (unseeded)
global generator. -/
def forecast_prices (lo last avg : ℚ) (w : ℕ → ℚ) : List ℚ :=
  (List.range 7).map fun i =>
    pyRound 2 (max (lo * (7/10))
      (last + avg * (i + 1) + uniform (-(1/2)) (1/2) (w i)))

/-- End-to-end forecast series of the voice flow for range `(lo, hi)`:
seeded 30-step walk, last five points, linear trend, 7 projected prices.
(The projection clamps only to the floor `lo * 0.7`; `hi` enters only the
walk's clamp.) -/
def voice_forecast (lo hi : ℚ) (u w : ℕ → ℚ) : List ℚ :=
  let last5 := prices_last5 lo hi u
  forecast_prices lo (last5.getLastD 0) (avg_change last5) w

/-- The three actions of the sell-timing recommendation. -/
inductive SellAction where
  | WAIT_2_DAYS
  | WAIT_WEEK
  | SELL_TODAY
  deriving DecidableEq, Repr

/-- One forecast entry as the decision engine sees it: a calendar day label
and a predicted price. -/
structure ForecastPoint where
  day_label : String
  predicted_price : ℚ
  deriving DecidableEq, Repr

/-- A sell-timing recommendation (action, best day label, best price). -/
structure SellTiming where
  action : SellAction
  best_day : String
  best_price : ℚ
  deriving DecidableEq, Repr

/-- First-maximum search over a nonempty list `x :: xs`, by the key `key`:
returns the (0-based) index and element of the first element attaining the
maximum key, as Python's `max(..., key=...)` followed by `.index(...)` does
on entries with pairwise-distinct dates. -/
def argmaxFirst {α : Type} (key : α → ℚ) (x : α) (xs : List α) : ℕ × α :=
  match xs with
  | [] => (0, x)
  | y :: ys =>
    if key x < key (argmaxFirst key y ys).2 then
      ((argmaxFirst key y ys).1 + 1, (argmaxFirst key y ys).2)
    else (0, x)

/-- The sell-timing decision of `process_voice`: peak of the forecast versus
`today_price * 1.03`, `WAIT_2_DAYS` when the peak is within the first two
forecast days, `WAIT_WEEK` when later, otherwise `SELL_TODAY` with
`best_day = "Today"` and `best_price = today_price`. -/
def sell_timing (today_price : ℚ) (f0 : ForecastPoint) (fs : List ForecastPoint) :
    SellTiming :=
  if (argmaxFirst ForecastPoint.predicted_price f0 fs).2.predicted_price >
      today_price * (103/100) then
    if (argmaxFirst ForecastPoint.predicted_price f0 fs).1 ≤ 1 then
      { action := .WAIT_2_DAYS,
        best_day := (argmaxFirst ForecastPoint.predicted_price f0 fs).2.day_label,
        best_price := (argmaxFirst ForecastPoint.predicted_price f0 fs).2.predicted_price }
    else
      { action := .WAIT_WEEK,
        best_day := (argmaxFirst ForecastPoint.predicted_price f0 fs).2.day_label,
        best_price := (argmaxFirst ForecastPoint.predicted_price f0 fs).2.predicted_price }
  else
    { action := .SELL_TODAY, best_day := "Today", best_price := today_price }

/-! ### Geospatial ranker (`haversine_distance`, `get_mandis_with_prices`) -/

/-- `math.radians`: degrees to radians. -/
noncomputable def radians (deg : ℝ) : ℝ := deg * (Real.pi / 180)

/-- `math.atan2 y x`, i.e. the argument of the complex number `x + i·y`
(the convention `math.atan2` implements, with `atan2 0 0 = 0`). -/
noncomputable def atan2 (y x : ℝ) : ℝ := Complex.arg ⟨x, y⟩

/-- The intermediate `a` of `haversine_distance`:
`sin²(Δlat/2) + cos(lat1)·cos(lat2)·sin²(Δlng/2)` (angles in radians). -/
noncomputable def haversineA (lat1 lng1 lat2 lng2 : ℝ) : ℝ :=
  Real.sin (radians (lat2 - lat1) / 2) ^ 2 +
    Real.cos (radians lat1) * Real.cos (radians lat2) *
      Real.sin (radians (lng2 - lng1) / 2) ^ 2

/-- `haversine_distance(lat1, lng1, lat2, lng2)` with Earth radius 6371 km:
`R * 2 * atan2(sqrt a, sqrt (1 - a))`. -/
noncomputable def haversine_distance (lat1 lng1 lat2 lng2 : ℝ) : ℝ :=
  6371 * 2 * atan2 (Real.sqrt (haversineA lat1 lng1 lat2 lng2))
    (Real.sqrt (1 - haversineA lat1 lng1 lat2 lng2))

/-- A mock mandi (trading post) record. -/
structure Mandi where
  id : ℕ
  name : String
  lat : ℝ
  lng : ℝ
  district : String

/-- `MOCK_MANDIS` of `routes.py`. -/
noncomputable def MOCK_MANDIS : List Mandi :=
  [⟨1, "APMC Yeshwanthpur", 13.0220, 77.5513, "Bangalore Urban"⟩,
   ⟨2, "KR Market", 12.9634, 77.5779, "Bangalore Urban"⟩,
   ⟨3, "Bangalore APMC Binny Mill", 12.9780, 77.5726, "Bangalore Urban"⟩,
   ⟨4, "Chikkaballapur Mandi", 13.4355, 77.7270, "Chikkaballapur"⟩,
   ⟨5, "Kolar Mandi", 13.1362, 78.1296, "Kolar"⟩,
   ⟨6, "Tumkur APMC", 13.3392, 77.1010, "Tumkur"⟩,
   ⟨7, "Mysore Mandi", 12.3051, 76.6551, "Mysore"⟩,
   ⟨8, "Mandya APMC", 12.5218, 76.8951, "Mandya"⟩]

/-- One row of the ranker's output: the mandi plus distance (rounded to one
decimal), simulated price, transport cost and travel time. -/
structure RankedMandi where
  mandi : Mandi
  distance_km : ℝ
  price_per_kg : ℝ
  transport_cost : ℝ
  travel_time_min : ℝ

/-- The row built for the `i`-th mandi `m` in `get_mandis_with_prices`,
with `u` the stream of unit draws of the global generator (three draws per
mandi: price, transport cost, travel time). -/
noncomputable def mandiRow (lat lng : ℝ) (lo hi : ℚ) (u : ℕ → ℝ) (i : ℕ)
    (m : Mandi) : RankedMandi :=
  let dist := haversine_distance lat lng m.lat m.lng
  { mandi := m
    distance_km := pyRound 1 dist
    price_per_kg := pyRound 2 (uniform (lo : ℝ) (hi : ℝ) (u (3 * i)))
    transport_cost := pyRound 2 (dist * 2.5 + uniform 100 500 (u (3 * i + 1)))
    travel_time_min := pyRound 0 (dist * 1.8 + uniform 10 30 (u (3 * i + 2))) }

/-- The ranker's sort key order: `mandis.sort(key=lambda x: x["distance_km"])`. -/
def byDist (a b : RankedMandi) : Prop := a.distance_km ≤ b.distance_km

noncomputable instance : DecidableRel byDist :=
  fun a b => inferInstanceAs (Decidable (a.distance_km ≤ b.distance_km))

instance : IsTotal RankedMandi byDist := ⟨fun a b => le_total a.distance_km b.distance_km⟩

instance : IsTrans RankedMandi byDist := ⟨fun _ _ _ => le_trans⟩

instance : IsRefl RankedMandi byDist := ⟨fun a => le_refl a.distance_km⟩

/-- The final sort of `get_mandis_with_prices`: a stable sort on the
`distance_km` field (Python's `list.sort` is stable). -/
noncomputable def rankRows (rows : List RankedMandi) : List RankedMandi :=
  rows.insertionSort byDist

/-- `get_mandis_with_prices(lat, lng, crop)` over an arbitrary mandi table
and an explicit price range `(lo, hi)`. -/
noncomputable def get_mandis_with_prices_range (u : ℕ → ℝ) (lat lng : ℝ)
    (lo hi : ℚ) (mandis : List Mandi) : List RankedMandi :=
  rankRows (mandis.enum.map fun im => mandiRow lat lng lo hi u im.1 im.2)

/-- `get_mandis_with_prices(lat, lng, crop)`: look the crop's price range up
(default `(20, 50)`), build one row per mandi, sort by rounded distance. -/
noncomputable def get_mandis_with_prices (u : ℕ → ℝ) (lat lng : ℝ)
    (crop : String) (mandis : List Mandi) : List RankedMandi :=
  let pr := cropPriceRange crop
  get_mandis_with_prices_range u lat lng pr.1 pr.2 mandis

/-! ### Helper lemmas on rounding -/

theorem pyRoundInt_ge {α : Type} [LinearOrderedField α] [FloorRing α]
    (x : α) (c : ℤ) (h : (c : α) ≤ x) : c ≤ pyRoundInt x := by
  have hfl : c ≤ ⌊x⌋ := Int.le_floor.mpr h
  unfold pyRoundInt
  split_ifs <;> omega

theorem pyRoundInt_le {α : Type} [LinearOrderedField α] [FloorRing α]
    (x : α) (c : ℤ) (h : x ≤ (c : α)) : pyRoundInt x ≤ c := by
  have hfl : ⌊x⌋ ≤ c := by
    have h2 : ((⌊x⌋ : ℤ) : α) ≤ (c : α) := le_trans (Int.floor_le x) h
    exact_mod_cast h2
  have key : ∀ hhalf : (1 : α) / 2 ≤ x - (⌊x⌋ : α), ⌊x⌋ + 1 ≤ c := by
    intro hhalf
    have hlt : ((⌊x⌋ : ℤ) : α) < (c : α) := lt_of_lt_of_le (by linarith) h
    have : ⌊x⌋ < c := by exact_mod_cast hlt
    omega
  unfold pyRoundInt
  split_ifs with h1 h2 h3
  · exact hfl
  · exact key (le_of_lt (by linarith))
  · exact hfl
  · exact key (by linarith)

theorem pyRound_ge {α : Type} [LinearOrderedField α] [FloorRing α]
    (n : ℕ) (x : α) (c : ℤ) (h : (c : α) / 10 ^ n ≤ x) :
    (c : α) / 10 ^ n ≤ pyRound n x := by
  have h10 : (0 : α) < 10 ^ n := by positivity
  have h1 : (c : α) ≤ x * 10 ^ n := by
    rw [div_le_iff₀ h10] at h; exact h
  have h2 : ((c : ℤ) : α) ≤ ((pyRoundInt (x * 10 ^ n) : ℤ) : α) := by
    exact_mod_cast pyRoundInt_ge (x * 10 ^ n) c h1
  unfold pyRound
  gcongr

theorem pyRound_le {α : Type} [LinearOrderedField α] [FloorRing α]
    (n : ℕ) (x : α) (c : ℤ) (h : x ≤ (c : α) / 10 ^ n) :
    pyRound n x ≤ (c : α) / 10 ^ n := by
  have h10 : (0 : α) < 10 ^ n := by positivity
  have h1 : x * 10 ^ n ≤ (c : α) := by
    rw [le_div_iff₀ h10] at h; exact h
  have h2 : ((pyRoundInt (x * 10 ^ n) : ℤ) : α) ≤ ((c : ℤ) : α) := by
    exact_mod_cast pyRoundInt_le (x * 10 ^ n) c h1
  unfold pyRound
  gcongr

/-! ### C2, C3, C5, C9 -/

/-- C2: for a fixed (crop, asOfDate) pair the simulated history is a pure
function of its inputs — the output depends on the crop and the date only
through the price range, the seed `hash(crop) + date.toordinal()` and the
date itself — and, for a fixed crop, two distinct calendar dates yield two
distinct seeds. -/
theorem C2_price_history_determinism :
    (∀ (gen : ℤ → ℕ → ℚ) (hs1 hs2 : String → ℤ) (c1 c2 : String)
        (o1 o2 : ℤ) (days : ℕ),
        cropPriceRange c1 = cropPriceRange c2 →
        hs1 c1 + o1 = hs2 c2 + o2 →
        o1 = o2 →
        get_price_history gen hs1 c1 o1 days =
          get_price_history gen hs2 c2 o2 days) ∧
    (∀ (hashS : String → ℤ) (c : String) (o o' : ℤ),
        o ≠ o' → hashS c + o ≠ hashS c + o') := by
  constructor
  · intro gen hs1 hs2 c1 c2 o1 o2 days hpr hseed hord
    subst hord
    unfold get_price_history
    rw [hpr, hseed]
  · intro hashS c o o' hne
    omega

theorem C2_price_history_determinism_witness :
    (cropPriceRange "tomato" = cropPriceRange "tomato" ∧
      (fun _ : String => (7 : ℤ)) "tomato" + 3 = (fun _ : String => (7 : ℤ)) "tomato" + 3 ∧
      (3 : ℤ) = 3 ∧
      get_price_history (fun _ _ => 0) (fun _ => 7) "tomato" 3 2 =
        get_price_history (fun _ _ => 0) (fun _ => 7) "tomato" 3 2) ∧
    ((3 : ℤ) ≠ 4 ∧ (fun _ : String => (7 : ℤ)) "tomato" + 3 ≠ (fun _ : String => (7 : ℤ)) "tomato" + 4) :=
  ⟨⟨rfl, rfl, rfl,
      C2_price_history_determinism.1 (fun _ _ => 0) (fun _ => 7) (fun _ => 7)
        "tomato" "tomato" 3 3 2 rfl rfl rfl⟩,
    ⟨by decide, C2_price_history_determinism.2 (fun _ => 7) "tomato" 3 4 (by decide)⟩⟩

/-- C3 (counterexample): on the 5-point series [2, 4, 6, 8, 10] the code's
trend estimate is (10 − 2) / 5 = 8/5, not (10 − 2) / (5 − 1) = 2 as the
claim's formula `(last − first) / (count − 1)` states. -/
theorem C3_trend_estimate_counterexample :
    avg_change [2, 4, 6, 8, 10] ≠ ((10 : ℚ) - 2) / (5 - 1) := by
  norm_num [avg_change]

/-- C3 (amended): the trend estimate over a series of `count` points equals
`(last − first) / count` (division by the length, not by `count − 1`), and
is 0 when the series has fewer than 2 points. -/
theorem C3_trend_estimate (xs : List ℚ) (h : xs ≠ []) :
    (1 < xs.length →
      avg_change xs = (xs.getLast h - xs.head h) / xs.length) ∧
    (xs.length ≤ 1 → avg_change xs = 0) := by
  constructor
  · intro hlen
    unfold avg_change
    rw [if_pos hlen, List.getLastD_eq_getLast? , List.getLast?_eq_getLast _ h,
      List.headD_eq_head? , List.head?_eq_head h]
    rfl
  · intro hlen
    unfold avg_change
    rw [if_neg (by omega)]

theorem C3_trend_estimate_witness :
    ([2, 4, 6, 8, 10] : List ℚ) ≠ [] ∧ 1 < ([2, 4, 6, 8, 10] : List ℚ).length ∧
      avg_change [2, 4, 6, 8, 10] =
        (([2, 4, 6, 8, 10] : List ℚ).getLast (by decide) -
          ([2, 4, 6, 8, 10] : List ℚ).head (by decide)) / ([2, 4, 6, 8, 10] : List ℚ).length :=
  ⟨by decide, by decide,
    (C3_trend_estimate [2, 4, 6, 8, 10] (by decide)).1 (by decide)⟩

/-- C5 (counterexample): at the unit draw `u = 1` the pre-forecast window of
the voice flow starts at midpoint + 3 (`rng.uniform(-3, 3)`), not at
midpoint + 5 as the claimed `uniform(-5, +5)` perturbation would give. -/
theorem C5_start_price_counterexample :
    voice_start_price 15 55 1 ≠ (15 + 55) / 2 + uniform (-5) 5 1 := by
  norm_num [voice_start_price, uniform]

/-- C5 (amended): the full-history path starts at the range midpoint plus a
seeded `uniform(-5, 5)` perturbation, while the short pre-forecast window of
the voice flow starts at the midpoint plus a seeded `uniform(-3, 3)`
perturbation; for unit draws in [0, 1] the two perturbations stay within
[−5, 5] and [−3, 3] respectively. -/
theorem C5_start_prices (lo hi u0 : ℚ) (h0 : 0 ≤ u0) (h1 : u0 ≤ 1) :
    history_start_price lo hi u0 = (lo + hi) / 2 + uniform (-5) 5 u0 ∧
    voice_start_price lo hi u0 = (lo + hi) / 2 + uniform (-3) 3 u0 ∧
    -5 ≤ history_start_price lo hi u0 - (lo + hi) / 2 ∧
    history_start_price lo hi u0 - (lo + hi) / 2 ≤ 5 ∧
    -3 ≤ voice_start_price lo hi u0 - (lo + hi) / 2 ∧
    voice_start_price lo hi u0 - (lo + hi) / 2 ≤ 3 := by
  unfold history_start_price voice_start_price uniform
  refine ⟨rfl, rfl, by linarith, by linarith, by linarith, by linarith⟩

theorem C5_start_prices_witness :
    (0 : ℚ) ≤ 1/2 ∧ (1/2 : ℚ) ≤ 1 ∧
      (history_start_price 15 55 (1/2) = (15 + 55) / 2 + uniform (-5) 5 (1/2) ∧
        voice_start_price 15 55 (1/2) = (15 + 55) / 2 + uniform (-3) 3 (1/2) ∧
        -5 ≤ history_start_price 15 55 (1/2) - (15 + 55) / 2 ∧
        history_start_price 15 55 (1/2) - (15 + 55) / 2 ≤ 5 ∧
        -3 ≤ voice_start_price 15 55 (1/2) - (15 + 55) / 2 ∧
        voice_start_price 15 55 (1/2) - (15 + 55) / 2 ≤ 3) :=
  ⟨by norm_num, by norm_num, C5_start_prices 15 55 (1/2) (by norm_num) (by norm_num)⟩

/-- C9: a crop whose lowercased name is not in the table makes both the
price simulator and the ranker silently use the default range (20, 50). -/
theorem C9_unknown_crop_default (crop : String)
    (h : CROP_PRICE_RANGES.lookup (lower crop) = none) :
    cropPriceRange crop = (20, 50) ∧
    (∀ (gen : ℤ → ℕ → ℚ) (hashS : String → ℤ) (ordinal : ℤ) (days : ℕ),
      get_price_history gen hashS crop ordinal days =
        getPriceHistoryR (gen (hashS crop + ordinal)) 20 50 ordinal days mandi_names) ∧
    (∀ (u : ℕ → ℝ) (lat lng : ℝ) (mandis : List Mandi),
      get_mandis_with_prices u lat lng crop mandis =
        get_mandis_with_prices_range u lat lng 20 50 mandis) := by
  have hcr : cropPriceRange crop = (20, 50) := by
    unfold cropPriceRange
    rw [h]
    rfl
  refine ⟨hcr, ?_, ?_⟩
  · intro gen hashS ordinal days
    simp only [get_price_history, hcr]
  · intro u lat lng mandis
    simp only [get_mandis_with_prices, hcr]

theorem C9_unknown_crop_default_witness :
    CROP_PRICE_RANGES.lookup (lower "durian") = none ∧
      cropPriceRange "durian" = (20, 50) :=
  ⟨by decide, (C9_unknown_crop_default "durian" (by decide)).1⟩

/-! ### C1: the sell-timing decision -/

/-- `argmaxFirst` returns the maximum of the keys together with the least
index attaining it: its element is in the list, sits at the returned index,
its key dominates every key, and every earlier element has a strictly
smaller key. -/
theorem argmaxFirst_spec {α : Type} (key : α → ℚ) (x : α) (xs : List α) :
    (argmaxFirst key x xs).2 ∈ x :: xs ∧
    (x :: xs)[(argmaxFirst key x xs).1]? = some (argmaxFirst key x xs).2 ∧
    (∀ q ∈ x :: xs, key q ≤ key (argmaxFirst key x xs).2) ∧
    (∀ q ∈ (x :: xs).take (argmaxFirst key x xs).1,
      key q < key (argmaxFirst key x xs).2) := by
  induction xs generalizing x with
  | nil =>
    simp [argmaxFirst]
  | cons y ys ih =>
    obtain ⟨ihmem, ihget, ihmax, ihtake⟩ := ih y
    by_cases hlt : key x < key (argmaxFirst key y ys).2
    · rw [argmaxFirst, if_pos hlt]
      refine ⟨List.mem_cons_of_mem x ihmem, by simpa using ihget, ?_, ?_⟩
      · intro q hq
        rcases List.mem_cons.mp hq with rfl | hq
        · exact le_of_lt hlt
        · exact ihmax q hq
      · intro q hq
        rw [List.take_succ_cons] at hq
        rcases List.mem_cons.mp hq with rfl | hq
        · exact hlt
        · exact ihtake q hq
    · rw [argmaxFirst, if_neg hlt]
      push_neg at hlt
      refine ⟨List.mem_cons_self x (y :: ys), by simp, ?_, by simp⟩
      intro q hq
      rcases List.mem_cons.mp hq with rfl | hq
      · exact le_rfl
      · exact le_trans (ihmax q hq) hlt

/-- C1: the decision engine returns WAIT_2_DAYS iff the peak forecast price
exceeds `today_price * 1.03` and the peak's 0-based index is at most 1,
WAIT_WEEK iff the peak exceeds the threshold at a later index, and
SELL_TODAY (with `best_day = "Today"`, `best_price = today_price`) otherwise;
the peak is the maximum predicted price, at its earliest index. -/
theorem C1_sell_timing_decision (t : ℚ) (f0 : ForecastPoint) (fs : List ForecastPoint) :
    ((sell_timing t f0 fs).action = SellAction.WAIT_2_DAYS ↔
      t * (103/100) < (argmaxFirst ForecastPoint.predicted_price f0 fs).2.predicted_price ∧
        (argmaxFirst ForecastPoint.predicted_price f0 fs).1 ≤ 1) ∧
    ((sell_timing t f0 fs).action = SellAction.WAIT_WEEK ↔
      t * (103/100) < (argmaxFirst ForecastPoint.predicted_price f0 fs).2.predicted_price ∧
        1 < (argmaxFirst ForecastPoint.predicted_price f0 fs).1) ∧
    ((sell_timing t f0 fs).action = SellAction.SELL_TODAY ↔
      (argmaxFirst ForecastPoint.predicted_price f0 fs).2.predicted_price ≤ t * (103/100)) ∧
    ((argmaxFirst ForecastPoint.predicted_price f0 fs).2.predicted_price ≤ t * (103/100) →
      sell_timing t f0 fs = ⟨SellAction.SELL_TODAY, "Today", t⟩) ∧
    (argmaxFirst ForecastPoint.predicted_price f0 fs).2 ∈ f0 :: fs ∧
    (f0 :: fs)[(argmaxFirst ForecastPoint.predicted_price f0 fs).1]? =
      some (argmaxFirst ForecastPoint.predicted_price f0 fs).2 ∧
    (∀ q ∈ f0 :: fs, q.predicted_price ≤
      (argmaxFirst ForecastPoint.predicted_price f0 fs).2.predicted_price) ∧
    (∀ q ∈ (f0 :: fs).take (argmaxFirst ForecastPoint.predicted_price f0 fs).1,
      q.predicted_price <
        (argmaxFirst ForecastPoint.predicted_price f0 fs).2.predicted_price) := by
  obtain ⟨hmem, hget, hmax, htake⟩ := argmaxFirst_spec ForecastPoint.predicted_price f0 fs
  unfold sell_timing
  split_ifs with hgt hidx
  · refine ⟨?_, ?_, ?_, ?_, hmem, hget, hmax, htake⟩
    · exact iff_of_true rfl ⟨hgt, hidx⟩
    · exact iff_of_false (by simp) (fun h => by omega)
    · exact iff_of_false (by simp) (fun h => absurd hgt (not_lt.mpr h))
    · exact fun h => absurd hgt (not_lt.mpr h)
  · refine ⟨?_, ?_, ?_, ?_, hmem, hget, hmax, htake⟩
    · exact iff_of_false (by simp) (fun h => by omega)
    · exact iff_of_true rfl ⟨hgt, by omega⟩
    · exact iff_of_false (by simp) (fun h => absurd hgt (not_lt.mpr h))
    · exact fun h => absurd hgt (not_lt.mpr h)
  · push_neg at hgt
    refine ⟨?_, ?_, ?_, ?_, hmem, hget, hmax, htake⟩
    · exact iff_of_false (by simp) (fun h => absurd h.1 (not_lt.mpr hgt))
    · exact iff_of_false (by simp) (fun h => absurd h.1 (not_lt.mpr hgt))
    · exact iff_of_true rfl hgt
    · exact fun _ => rfl

theorem C1_sell_timing_decision_witness :
    ((argmaxFirst ForecastPoint.predicted_price ⟨"Mon 01 Jan", 50⟩ []).2.predicted_price ≤
      (100 : ℚ) * (103/100)) ∧
    sell_timing 100 ⟨"Mon 01 Jan", 50⟩ [] = ⟨SellAction.SELL_TODAY, "Today", 100⟩ :=
  ⟨by norm_num [argmaxFirst],
    (C1_sell_timing_decision 100 ⟨"Mon 01 Jan", 50⟩ []).2.2.2.1 (by norm_num [argmaxFirst])⟩

/-! ### C4: bounds invariant -/

/-- Every price range the lookup can produce is a pair of positive naturals
`(A, B)` with `A ≤ B` (the fifteen table entries or the default (20, 50)). -/
theorem cropPriceRange_nat (crop : String) :
    ∃ A B : ℕ, cropPriceRange crop = ((A : ℚ), (B : ℚ)) ∧ 0 < A ∧ A ≤ B := by
  have hmem : cropPriceRange crop ∈
      ((20, 50) : ℚ × ℚ) :: CROP_PRICE_RANGES.map Prod.snd := by
    unfold cropPriceRange
    rcases hl : CROP_PRICE_RANGES.lookup (lower crop) with _ | pr
    · simp
    · have hin : (lower crop, pr) ∈ CROP_PRICE_RANGES := by
        obtain ⟨l₁, l₂, heq, -⟩ := List.lookup_eq_some_iff.mp hl
        rw [heq]
        exact List.mem_append_right _ (List.mem_cons_self _ _)
      exact List.mem_cons_of_mem _ (List.mem_map_of_mem Prod.snd hin)
  simp only [CROP_PRICE_RANGES, List.map_cons, List.map_nil, List.mem_cons,
    List.not_mem_nil, or_false] at hmem
  rcases hmem with h|h|h|h|h|h|h|h|h|h|h|h|h|h|h|h <;> rw [h]
  exacts [⟨20, 50, rfl, by norm_num, by norm_num⟩,
    ⟨15, 55, rfl, by norm_num, by norm_num⟩,
    ⟨20, 60, rfl, by norm_num, by norm_num⟩,
    ⟨18, 40, rfl, by norm_num, by norm_num⟩,
    ⟨22, 35, rfl, by norm_num, by norm_num⟩,
    ⟨30, 50, rfl, by norm_num, by norm_num⟩,
    ⟨80, 200, rfl, by norm_num, by norm_num⟩,
    ⟨25, 50, rfl, by norm_num, by norm_num⟩,
    ⟨20, 45, rfl, by norm_num, by norm_num⟩,
    ⟨12, 30, rfl, by norm_num, by norm_num⟩,
    ⟨25, 60, rfl, by norm_num, by norm_num⟩,
    ⟨20, 45, rfl, by norm_num, by norm_num⟩,
    ⟨40, 120, rfl, by norm_num, by norm_num⟩,
    ⟨50, 150, rfl, by norm_num, by norm_num⟩,
    ⟨80, 200, rfl, by norm_num, by norm_num⟩,
    ⟨3, 5, rfl, by norm_num, by norm_num⟩]

/-- Every value the clamped walk emits lies in `[lo*0.7, hi*1.3]`. -/
theorem walkFrom_bounds (A B : ℕ) (hAB : A ≤ B) (u : ℕ → ℚ) :
    ∀ (days k : ℕ) (p q : ℚ), q ∈ walkFrom (A : ℚ) (B : ℚ) u k p days →
      (A : ℚ) * (7/10) ≤ q ∧ q ≤ (B : ℚ) * (13/10) := by
  intro days
  induction days with
  | zero =>
    intro k p q hq
    simp [walkFrom] at hq
  | succ d ih =>
    intro k p q hq
    simp only [walkFrom] at hq
    rcases List.mem_cons.mp hq with rfl | hq
    · have hlo : ((70 * (A : ℤ) : ℤ) : ℚ) / 10 ^ 2 = (A : ℚ) * (7/10) := by
        push_cast; ring
      have hhi : ((130 * (B : ℤ) : ℤ) : ℚ) / 10 ^ 2 = (B : ℚ) * (13/10) := by
        push_cast; ring
      have hlos : (A : ℚ) * (7/10) ≤
          walkStep (A : ℚ) (B : ℚ) p (uniform (-2) (23/10) (u k)) :=
        le_max_left _ _
      have hhis : walkStep (A : ℚ) (B : ℚ) p (uniform (-2) (23/10) (u k)) ≤
          (B : ℚ) * (13/10) := by
        apply max_le
        · have hb : (0 : ℚ) ≤ (B : ℚ) := by positivity
          have ha : (A : ℚ) ≤ (B : ℚ) := by exact_mod_cast hAB
          nlinarith
        · exact min_le_left _ _
      constructor
      · rw [← hlo]
        exact pyRound_ge 2 _ _ (by rw [hlo]; exact hlos)
      · rw [← hhi]
        exact pyRound_le 2 _ _ (by rw [hhi]; exact hhis)
    · exact ih _ _ _ hq

theorem snd_mem_of_mem_enum {α : Type} {x : ℕ × α} {l : List α}
    (h : x ∈ l.enum) : x.2 ∈ l := by
  have h2 := List.mem_map_of_mem Prod.snd h
  rwa [List.enum_map_snd] at h2

/-- Every price in the simulated history comes from some per-mandi walk. -/
theorem mem_getPriceHistoryR_price {u : ℕ → ℚ} {lo hi : ℚ} {ordinal : ℤ}
    {days : ℕ} {names : List String} {pt : PricePoint}
    (h : pt ∈ getPriceHistoryR u lo hi ordinal days names) :
    ∃ start p0, pt.price_per_kg ∈ walkFrom lo hi u (start + 1) p0 days := by
  simp only [getPriceHistoryR, List.mem_flatten, List.mem_map] at h
  obtain ⟨l, ⟨jn, hjn, rfl⟩, hptl⟩ := h
  simp only [List.mem_map] at hptl
  obtain ⟨dp, hdp, rfl⟩ := hptl
  exact ⟨jn.1 * (1 + days), history_start_price lo hi (u (jn.1 * (1 + days))),
    snd_mem_of_mem_enum hdp⟩

set_option maxRecDepth 8000 in
/-- C4: every simulated history price for a crop lies within
`[0.7 * low, 1.3 * high]` of the crop's configured range; every forecast
price respects the floor `0.7 * low`; and the forecast has no upper clamp —
with range (15, 55) (tomato) and all unit draws at 1, the end-to-end voice
forecast contains 72, which exceeds `1.3 * 55 = 71.5`. -/
theorem C4_bounds_invariant :
    (∀ (crop : String) (gen : ℤ → ℕ → ℚ) (hashS : String → ℤ) (ordinal : ℤ)
        (days : ℕ) (pt : PricePoint),
        pt ∈ get_price_history gen hashS crop ordinal days →
        (cropPriceRange crop).1 * (7/10) ≤ pt.price_per_kg ∧
          pt.price_per_kg ≤ (cropPriceRange crop).2 * (13/10)) ∧
    (∀ (crop : String) (last avg : ℚ) (w : ℕ → ℚ) (q : ℚ),
        q ∈ forecast_prices (cropPriceRange crop).1 last avg w →
        (cropPriceRange crop).1 * (7/10) ≤ q) ∧
    (cropPriceRange "tomato" = (15, 55) ∧
      (72 : ℚ) ∈ voice_forecast 15 55 (fun _ => 1) (fun _ => 1) ∧
      (55 : ℚ) * (13/10) < 72) := by
  refine ⟨?_, ?_, ?_, ?_, by norm_num⟩
  · intro crop gen hashS ordinal days pt hpt
    obtain ⟨A, B, heq, hA, hAB⟩ := cropPriceRange_nat crop
    rw [heq]
    unfold get_price_history at hpt
    rw [heq] at hpt
    obtain ⟨s, p0, hw⟩ := mem_getPriceHistoryR_price hpt
    exact walkFrom_bounds A B hAB _ days _ _ _ hw
  · intro crop last avg w q hq
    obtain ⟨A, B, heq, hA, hAB⟩ := cropPriceRange_nat crop
    rw [heq] at hq ⊢
    simp only [forecast_prices, List.mem_map] at hq
    obtain ⟨i, hi, rfl⟩ := hq
    show (A : ℚ) * (7/10) ≤ pyRound 2 (max ((A : ℚ) * (7/10)) _)
    have hlo : ((70 * (A : ℤ) : ℤ) : ℚ) / 10 ^ 2 = (A : ℚ) * (7/10) := by
      push_cast; ring
    rw [← hlo]
    exact pyRound_ge 2 _ _ (by rw [hlo]; exact le_max_left _ _)
  · decide
  · norm_num [voice_forecast, prices_last5, voice_prices30, voice_start_price,
      walkFrom, walkStep, uniform, pyRound, pyRoundInt, forecast_prices,
      avg_change, List.range_succ]

theorem C4_bounds_invariant_witness :
    ((21/2 : ℚ) ∈ forecast_prices (cropPriceRange "tomato").1 0 0 (fun _ => 1)) ∧
    (cropPriceRange "tomato").1 * (7/10) ≤ (21/2 : ℚ) := by
  have hmem : (21/2 : ℚ) ∈ forecast_prices (cropPriceRange "tomato").1 0 0 (fun _ => 1) := by
    have hcr : cropPriceRange "tomato" = (15, 55) := by decide
    rw [hcr]
    norm_num [forecast_prices, uniform, pyRound, pyRoundInt, List.range_succ]
  exact ⟨hmem, C4_bounds_invariant.2.1 "tomato" 0 0 (fun _ => 1) (21/2) hmem⟩

/-! ### C6: ranker output shape, order, stability -/

/-- C6: the ranker emits exactly one ranked row per known mandi (its output
is a permutation of the built rows and has the same length as the input),
the output is sorted non-decreasingly in the reported distance field with
ties kept in input order (stable sort), and an empty mandi table yields an
empty output without error. -/
theorem C6_ranker_order :
    (∀ (u : ℕ → ℝ) (lat lng : ℝ) (crop : String),
        get_mandis_with_prices u lat lng crop [] = []) ∧
    (∀ (u : ℕ → ℝ) (lat lng : ℝ) (crop : String) (mandis : List Mandi),
        (get_mandis_with_prices u lat lng crop mandis).length = mandis.length) ∧
    (∀ (u : ℕ → ℝ) (lat lng : ℝ) (crop : String) (mandis : List Mandi),
        (get_mandis_with_prices u lat lng crop mandis).Sorted byDist) ∧
    (∀ (u : ℕ → ℝ) (lat lng : ℝ) (crop : String) (mandis : List Mandi),
        (get_mandis_with_prices u lat lng crop mandis).Perm
          (mandis.enum.map fun im =>
            mandiRow lat lng (cropPriceRange crop).1 (cropPriceRange crop).2 u im.1 im.2)) ∧
    (∀ (u : ℕ → ℝ) (lat lng : ℝ) (crop : String) (mandis : List Mandi)
        (c : List RankedMandi),
        c.Pairwise byDist →
        c.Sublist (mandis.enum.map fun im =>
          mandiRow lat lng (cropPriceRange crop).1 (cropPriceRange crop).2 u im.1 im.2) →
        c.Sublist (get_mandis_with_prices u lat lng crop mandis)) := by
  refine ⟨?_, ?_, ?_, ?_, ?_⟩
  · intro u lat lng crop
    rfl
  · intro u lat lng crop mandis
    simp [get_mandis_with_prices, get_mandis_with_prices_range, rankRows,
      List.length_insertionSort]
  · intro u lat lng crop mandis
    exact List.sorted_insertionSort byDist _
  · intro u lat lng crop mandis
    exact List.perm_insertionSort byDist _
  · intro u lat lng crop mandis c hp hc
    exact List.sublist_insertionSort hp hc

theorem C6_ranker_order_witness :
    List.Pairwise byDist ([] : List RankedMandi) ∧
    ([] : List RankedMandi).Sublist (([] : List Mandi).enum.map fun im =>
      mandiRow 0 0 (cropPriceRange "tomato").1 (cropPriceRange "tomato").2
        (fun _ => 0) im.1 im.2) ∧
    ([] : List RankedMandi).Sublist (get_mandis_with_prices (fun _ => 0) 0 0 "tomato" []) :=
  ⟨List.Pairwise.nil, List.nil_sublist _,
    C6_ranker_order.2.2.2.2 (fun _ => 0) 0 0 "tomato" [] []
      List.Pairwise.nil (List.nil_sublist _)⟩

/-! ### C7 and C8: haversine symmetry, zero, and totality -/

/-- The haversine intermediate is symmetric in its two coordinates. -/
theorem haversineA_symm (a b c d : ℝ) :
    haversineA a b c d = haversineA c d a b := by
  unfold haversineA
  have e1 : radians (a - c) = -(radians (c - a)) := by unfold radians; ring
  have e2 : radians (b - d) = -(radians (d - b)) := by unfold radians; ring
  rw [e1, e2, neg_div, neg_div, Real.sin_neg, Real.sin_neg, neg_sq, neg_sq]
  ring

/-- C7: the haversine distance is symmetric, and the distance from a
coordinate to itself is 0. -/
theorem C7_haversine_symm_and_zero :
    (∀ lat1 lng1 lat2 lng2 : ℝ,
      haversine_distance lat1 lng1 lat2 lng2 =
        haversine_distance lat2 lng2 lat1 lng1) ∧
    (∀ lat lng : ℝ, haversine_distance lat lng lat lng = 0) := by
  constructor
  · intro a b c d
    unfold haversine_distance
    rw [haversineA_symm a b c d]
  · intro lat lng
    have h0 : haversineA lat lng lat lng = 0 := by
      unfold haversineA radians
      simp
    unfold haversine_distance
    rw [h0]
    have h1 : atan2 (Real.sqrt 0) (Real.sqrt (1 - 0)) = 0 := by
      unfold atan2
      rw [Real.sqrt_zero, show (1:ℝ) - 0 = 1 by ring, Real.sqrt_one]
      have : (⟨1, 0⟩ : ℂ) = 1 := by
        simp [Complex.ext_iff]
      rw [this]
      exact Complex.arg_one
    rw [h1, mul_zero]

/-- C8: for all real inputs the haversine intermediate `a` lies in [0, 1],
so `sqrt a` and `sqrt (1 − a)` are well defined and the distance is a total
function of its inputs (no exception is possible). -/
theorem C8_haversine_total (lat1 lng1 lat2 lng2 : ℝ) :
    0 ≤ haversineA lat1 lng1 lat2 lng2 ∧
    haversineA lat1 lng1 lat2 lng2 ≤ 1 ∧
    0 ≤ 1 - haversineA lat1 lng1 lat2 lng2 ∧
    haversine_distance lat1 lng1 lat2 lng2 =
      6371 * 2 * atan2 (Real.sqrt (haversineA lat1 lng1 lat2 lng2))
        (Real.sqrt (1 - haversineA lat1 lng1 lat2 lng2)) := by
  have hxy : radians (lat2 - lat1) = radians lat2 - radians lat1 := by
    unfold radians; ring
  have hbounds : 0 ≤ haversineA lat1 lng1 lat2 lng2 ∧
      haversineA lat1 lng1 lat2 lng2 ≤ 1 := by
    unfold haversineA
    rw [hxy]
    have hs : Real.sin ((radians lat2 - radians lat1) / 2) ^ 2 =
        1/2 - Real.cos (radians lat2 - radians lat1) / 2 := by
      rw [Real.sin_sq_eq_half_sub]
      rw [show 2 * ((radians lat2 - radians lat1) / 2) =
        radians lat2 - radians lat1 by ring]
    have hcs : Real.cos (radians lat2 - radians lat1) =
        Real.cos (radians lat2) * Real.cos (radians lat1) +
          Real.sin (radians lat2) * Real.sin (radians lat1) :=
      Real.cos_sub _ _
    have hca : Real.cos (radians lat2 + radians lat1) =
        Real.cos (radians lat2) * Real.cos (radians lat1) -
          Real.sin (radians lat2) * Real.sin (radians lat1) :=
      Real.cos_add _ _
    have ht0 : 0 ≤ Real.sin (radians (lng2 - lng1) / 2) ^ 2 := sq_nonneg _
    have ht1 : Real.sin (radians (lng2 - lng1) / 2) ^ 2 ≤ 1 :=
      Real.sin_sq_le_one _
    have hc1 : Real.cos (radians lat2 + radians lat1) ≤ 1 := Real.cos_le_one _
    have hc2 : -1 ≤ Real.cos (radians lat2 + radians lat1) :=
      Real.neg_one_le_cos _
    rcases le_or_lt 0 (Real.cos (radians lat1) * Real.cos (radians lat2))
      with hC | hC
    · have hup : Real.cos (radians lat1) * Real.cos (radians lat2) *
          Real.sin (radians (lng2 - lng1) / 2) ^ 2 ≤
            Real.cos (radians lat1) * Real.cos (radians lat2) :=
        mul_le_of_le_one_right hC ht1
      have hdn : 0 ≤ Real.cos (radians lat1) * Real.cos (radians lat2) *
          Real.sin (radians (lng2 - lng1) / 2) ^ 2 :=
        mul_nonneg hC ht0
      constructor
      · have : 0 ≤ Real.sin ((radians lat2 - radians lat1) / 2) ^ 2 :=
          sq_nonneg _
        linarith
      · nlinarith [hs, hcs, hca, hc1]
    · have hup : Real.cos (radians lat1) * Real.cos (radians lat2) *
          Real.sin (radians (lng2 - lng1) / 2) ^ 2 ≤ 0 :=
        mul_nonpos_of_nonpos_of_nonneg (le_of_lt hC) ht0
      have hdn : Real.cos (radians lat1) * Real.cos (radians lat2) * 1 ≤
          Real.cos (radians lat1) * Real.cos (radians lat2) *
            Real.sin (radians (lng2 - lng1) / 2) ^ 2 := by
        apply mul_le_mul_of_nonpos_left ht1 (le_of_lt hC)
      constructor
      · nlinarith [hs, hcs, hca, hc2]
      · have : Real.sin ((radians lat2 - radians lat1) / 2) ^ 2 ≤ 1 :=
          Real.sin_sq_le_one _
        linarith
  exact ⟨hbounds.1, hbounds.2, by linarith [hbounds.2], rfl⟩

/-! ### C10: the sort key is the rounded distance -/

theorem pyRound_1034 : pyRound 1 (10.34 : ℝ) = 103 / 10 := by
  unfold pyRound pyRoundInt
  rw [show (10.34 : ℝ) * 10 ^ 1 = 103.4 by norm_num,
    show ⌊(103.4 : ℝ)⌋ = 103 from by norm_num [Int.floor_eq_iff]]
  rw [if_pos (by norm_num : (103.4 : ℝ) - ((103 : ℤ) : ℝ) < 1 / 2)]
  norm_num

theorem pyRound_1026 : pyRound 1 (10.26 : ℝ) = 103 / 10 := by
  unfold pyRound pyRoundInt
  rw [show (10.26 : ℝ) * 10 ^ 1 = 102.6 by norm_num,
    show ⌊(102.6 : ℝ)⌋ = 102 from by norm_num [Int.floor_eq_iff]]
  rw [if_neg (by norm_num : ¬((102.6 : ℝ) - ((102 : ℤ) : ℝ) < 1 / 2)),
    if_pos (by norm_num : (102.6 : ℝ) - ((102 : ℤ) : ℝ) > 1 / 2)]
  norm_num

/-- C10: the ranker sorts by the rounded `distance_km` field it reports —
that field is `round(dist, 1)` of the exact haversine distance, the output
is non-decreasing in that rounded field, and two posts whose exact distances
10.34 km and 10.26 km differ but round to the same tenth keep their input
order even though their exact distances are out of order. -/
theorem C10_sorts_by_rounded_distance :
    (∀ (u : ℕ → ℝ) (lat lng : ℝ) (lo hi : ℚ) (i : ℕ) (m : Mandi),
        (mandiRow lat lng lo hi u i m).distance_km =
          pyRound 1 (haversine_distance lat lng m.lat m.lng)) ∧
    (∀ rows : List RankedMandi, (rankRows rows).Sorted byDist) ∧
    (pyRound 1 (10.34 : ℝ) = pyRound 1 (10.26 : ℝ) ∧ (10.26 : ℝ) < 10.34) ∧
    (∀ (m1 m2 : Mandi) (p1 t1 v1 p2 t2 v2 : ℝ),
        rankRows [⟨m1, pyRound 1 (10.34 : ℝ), p1, t1, v1⟩,
          ⟨m2, pyRound 1 (10.26 : ℝ), p2, t2, v2⟩] =
          [⟨m1, pyRound 1 (10.34 : ℝ), p1, t1, v1⟩,
            ⟨m2, pyRound 1 (10.26 : ℝ), p2, t2, v2⟩]) := by
  refine ⟨?_, ?_, ⟨?_, by norm_num⟩, ?_⟩
  · intro u lat lng lo hi i m
    rfl
  · intro rows
    exact List.sorted_insertionSort byDist rows
  · rw [pyRound_1034, pyRound_1026]
  · intro m1 m2 p1 t1 v1 p2 t2 v2
    have hle : byDist ⟨m1, pyRound 1 (10.34 : ℝ), p1, t1, v1⟩
        ⟨m2, pyRound 1 (10.26 : ℝ), p2, t2, v2⟩ := by
      show pyRound 1 (10.34 : ℝ) ≤ pyRound 1 (10.26 : ℝ)
      rw [pyRound_1034, pyRound_1026]
    simp [rankRows, List.insertionSort, List.orderedInsert, hle]
